import Mathlib

set_option allowUnsafeReducibility true

attribute [local semireducible] Rat.add Rat.mul Rat.sub Rat.inv Rat.ofScientific

/-!
Shallow embedding of the trade-ETL pipeline in `src/scripts/etl.py`
(validation, normalization, weekly aggregation, top-bronze reduction),
together with proofs about the claims of the specification.

Modelling conventions:
* pandas `Timestamp`s are `Ts` (days since 1970-01-01 plus second-of-day);
* machine floats are modelled as exact rationals `ℚ`;
* a nullable cell is an `Option`;
* a python `raise` is `Except.error` carrying the data the message names.
-/

/-- A timestamp instant: `day` counts days since 1970-01-01 (a Thursday),
`sec` is the second of the day.  Models a pandas `Timestamp`. -/
structure Ts where
  day : Int
  sec : Int
deriving DecidableEq, Repr

/-- Days from 1970-01-01 to Gregorian date `y-m-d` (the classic
`days_from_civil` algorithm).  `parseDate` only calls it with `1 ≤ y`, so
every intermediate quotient has non-negative operands. -/
def daysFromCivil (y m d : Int) : Int :=
  let y2 := if m ≤ 2 then y - 1 else y
  let era := y2 / 400
  let yoe := y2 - era * 400
  let mp := (m + 9) % 12
  let doy := (153 * mp + 2) / 5 + d - 1
  let doe := yoe * 365 + yoe / 4 - yoe / 100 + doy
  era * 146097 + doe - 719468

/-- Gregorian leap-year test. -/
def isLeap (y : Int) : Bool :=
  (y % 4 == 0 && y % 100 != 0) || (y % 400 == 0)

/-- Number of days in month `m` of year `y`. -/
def daysInMonth (y m : Int) : Int :=
  if m = 2 then (if isLeap y then 29 else 28)
  else if m = 4 ∨ m = 6 ∨ m = 9 ∨ m = 11 then 30
  else 31

/-- Kernel-computable split of a character list at a separator character;
`acc` holds the current fragment reversed. -/
def splitOnCharAux (c : Char) : List Char → List Char → List (List Char)
  | [], acc => [acc.reverse]
  | x :: xs, acc =>
    if x = c then acc.reverse :: splitOnCharAux c xs []
    else splitOnCharAux c xs (x :: acc)

/-- Split a character list on a separator character. -/
def splitOnChar (c : Char) (l : List Char) : List (List Char) :=
  splitOnCharAux c l []

/-- ASCII lower-casing (`str.lower`; the data this pipeline handles is
ASCII). -/
def strLower (s : String) : String := ⟨s.data.map Char.toLower⟩

/-- ASCII upper-casing (`str.upper`). -/
def strUpper (s : String) : String := ⟨s.data.map Char.toUpper⟩

/-- Whitespace trim on both ends (`str.strip`). -/
def strTrim (s : String) : String :=
  ⟨((s.data.dropWhile Char.isWhitespace).reverse.dropWhile Char.isWhitespace).reverse⟩

/-- Code-point lexicographic `≤` on character lists — the order python uses
when pandas sorts the string group keys of this pipeline. -/
def charListLe : List Char → List Char → Bool
  | [], _ => true
  | _ :: _, [] => false
  | a :: as, b :: bs => if a = b then charListLe as bs else decide (a < b)

/-- String `≤` (python string comparison). -/
def strLe (a b : String) : Prop := charListLe a.data b.data = true

instance : DecidableRel strLe :=
  fun a b => inferInstanceAs (Decidable (charListLe a.data b.data = true))

/-- Parse a field of exactly `k` decimal digits. -/
def parseDigits (k : Nat) (l : List Char) : Option Nat :=
  if l.length = k ∧ l.all Char.isDigit then
    some (l.foldl (fun n ch => 10 * n + (ch.toNat - 48)) 0)
  else none

/-- Parse `YYYY-MM-DD` to days since the epoch. -/
def parseDate (l : List Char) : Option Int :=
  match splitOnChar ('-') l with
  | [ys, ms, ds] => do
    let y ← parseDigits 4 ys
    let m ← parseDigits 2 ms
    let d ← parseDigits 2 ds
    if 1 ≤ y ∧ 1 ≤ m ∧ m ≤ 12 ∧ 1 ≤ d ∧ (d : Int) ≤ daysInMonth y m then
      some (daysFromCivil y m d)
    else none
  | _ => none

/-- Parse `HH:MM:SS` to a second of the day. -/
def parseTime (l : List Char) : Option Int :=
  match splitOnChar (':') l with
  | [hs, ms, ss] => do
    let h ← parseDigits 2 hs
    let m ← parseDigits 2 ms
    let s2 ← parseDigits 2 ss
    if h ≤ 23 ∧ m ≤ 59 ∧ s2 ≤ 59 then some (3600 * h + 60 * m + s2) else none
  | _ => none

/-- Timestamp parser modelling `pd.to_datetime(..., errors="coerce")` on the
ISO forms `YYYY-MM-DD` and `YYYY-MM-DD HH:MM:SS`; every other string
coerces to `none` (pandas `NaT`), as `errors="coerce"` does. -/
def parseTs (s : String) : Option Ts :=
  match splitOnChar (' ') s.data with
  | [d] => (parseDate d).map (fun day => ⟨day, 0⟩)
  | [d, t] => do
    let day ← parseDate d
    let sec ← parseTime t
    some ⟨day, sec⟩
  | _ => none

/-- Day of week of an epoch day, with Monday = 0 (day 0, 1970-01-01, was a
Thursday, hence the offset 3). -/
def dayOfWeekMon0 (day : Int) : Int := Int.emod (day + 3) 7

/-- The week bucket computed by `to_week_start_monday` in the source:
`pd.to_datetime(ts).dt.to_period('W-MON').dt.start_time`.  A pandas weekly
frequency anchored on `MON` is made of weeks that END on Monday, i.e. that
run Tuesday .. Monday, so `start_time` is the most recent Tuesday at or
before the instant, at midnight (1970-01-06, epoch day 5, was a Tuesday). -/
def to_week_start_monday (t : Ts) : Ts :=
  ⟨t.day - Int.emod (t.day - 5) 7, 0⟩

/-- Modelled from the spec: "every kept row's instant maps to the Monday at
or before that instant, time-of-day truncated — the row's ISO week start".
1970-01-05, epoch day 4, was a Monday. -/
def isoWeekStartMondaySpec (t : Ts) : Ts :=
  ⟨t.day - Int.emod (t.day - 4) 7, 0⟩

/-- One raw input record as the pipeline sees it after `pd.read_csv`:
`timestamp` is `none` for a missing value (`NaN`/`NaT`) and otherwise the
text of the field; `user_id` and `symbol` are likewise `none` for a missing
field (`NaN`, kept as `<NA>` through `astype("string")` — such rows survive
normalization, whose `dropna` covers only timestamp/quantity/price);
`quantity` and `price` carry the value that
`pd.to_numeric(..., errors="coerce")` produces for the field (`none` when
missing or unparseable), floats being modelled as exact rationals.
`client_type` and `side` are kept non-nullable: a missing `client_type`
fails the `isin` filter and never reaches aggregation, while a missing
`side` makes the cash-flow lambda's `1 if NA == "sell" else -1` raise
`TypeError` before any aggregate exists, so rows with those fields present
are the inputs the verified properties range over. -/
structure RawRow where
  timestamp : Option String
  user_id : Option String
  client_type : String
  symbol : Option String
  side : String
  quantity : Option ℚ
  price : Option ℚ
deriving DecidableEq, Repr

/-- A raw table: the column names actually present (`df.columns`) plus the
rows.  A row field is meaningful only when its column is present. -/
structure RawTable where
  cols : List String
  rows : List RawRow
deriving DecidableEq, Repr

/-- The fatal errors the pipeline raises (python `ValueError`/`KeyError`),
each carrying the data its message reports. -/
inductive ETLError where
  | timestampColumnNotFound : ETLError
  | nullTimestamps (positions : List Nat) : ETLError
  | unknownMode (mode : String) : ETLError
  | totalPnlColumnMissing : ETLError
deriving DecidableEq, Repr

/-- The mask `df["timestamp"].isna() | (df["timestamp"].astype(str).str.strip() == "")`
of `handle_null_timestamps`, per row. -/
def isEmptyTs (r : RawRow) : Bool :=
  match r.timestamp with
  | none => true
  | some s => strTrim s == ""

/-- Positions (`df.index`, the 0-based positions `read_csv` assigns) of the
rows whose timestamp is null or blank after trimming. -/
def emptyTsPositions (df : RawTable) : List Nat :=
  ((df.rows.enum).filter (fun p => isEmptyTs p.2)).map Prod.fst

/-- Function `handle_null_timestamps(df, mode)` from `src/scripts/etl.py`: raises when
the `timestamp` column is absent; when at least one row has a null/blank
timestamp, raises listing the first 5 such positions under mode `"error"`,
drops those rows under mode `"drop"`, and raises "Unknown mode" for any
other mode; with no null/blank timestamps the table passes through. -/
def handle_null_timestamps (df : RawTable) (mode : String) : Except ETLError RawTable :=
  if ("timestamp") ∈ df.cols then
    if df.rows.any isEmptyTs then
      if mode = "error" then .error (.nullTimestamps ((emptyTsPositions df).take 5))
      else if mode = "drop" then .ok { df with rows := df.rows.filter (fun r => !isEmptyTs r) }
      else .error (.unknownMode mode)
    else .ok df
  else .error .timestampColumnNotFound

/-- Function `extract(path)` from `src/scripts/etl.py`: ignores its `path` argument
and reads the fixed file `"data/trades.csv"`, then lower-cases and strips
the column names.  The file system is an explicit map from paths to tables;
the `parse_dates` option only changes the in-memory dtype, which this model
keeps textual. -/
def extract (path : String) (fileSystem : String → RawTable) : RawTable :=
  let df := fileSystem ("data/trades.csv")
  { df with cols := df.cols.map (fun c => strLower (strTrim c)) }

/-- The validation report: one optional entry per issue category, present
exactly when the category has at least one offender, holding the offending
rows (original columns). -/
structure ValidationReport where
  missing_columns : Option (List String)
  invalid_timestamp_format : Option (List RawRow)
  timestamp_in_future : Option (List RawRow)
  invalid_quantity : Option (List RawRow)
  invalid_price : Option (List RawRow)
  invalid_side : Option (List RawRow)
  invalid_client_type : Option (List RawRow)
deriving DecidableEq, Repr

/-- The list `req` of `validate_formats`. -/
def requiredColumns : List String :=
  ["timestamp", "user_id", "client_type", "symbol", "side", "quantity", "price"]

/-- A report entry is added only when its mask has an offender
(`if mask.any()` in the source). -/
def someIfNonempty (l : List RawRow) : Option (List RawRow) :=
  if l = [] then none else some l

/-- Strict order on instants, for the future-timestamp check. -/
def tsLt (a b : Ts) : Prop := a.day < b.day ∨ (a.day = b.day ∧ a.sec < b.sec)

instance : DecidableRel tsLt := fun a b => by unfold tsLt; infer_instance

/-- Function `validate_formats(df, forbid_future_ts)` from `src/scripts/etl.py`.
The implicit `pd.Timestamp.utcnow()` reference instant is passed as the
explicit parameter `now`. -/
def validate_formats (df : RawTable) (forbid_future_ts : Bool) (now : Ts) :
    ValidationReport :=
  let miss := requiredColumns.filter (fun c => !(df.cols.contains c))
  if miss ≠ [] then
    { missing_columns := some miss
      invalid_timestamp_format := none
      timestamp_in_future := none
      invalid_quantity := none
      invalid_price := none
      invalid_side := none
      invalid_client_type := none }
  else
    let parsedTs := fun (r : RawRow) => r.timestamp.bind parseTs
    let badTs := fun (r : RawRow) => (parsedTs r).isNone
    let fut := fun (r : RawRow) =>
      match parsedTs r with
      | some t => decide (tsLt now t)
      | none => false
    let badQty := fun (r : RawRow) =>
      match r.quantity with
      | none => true
      | some q => decide (q ≤ 0) || decide (q.den ≠ 1)
    let badPrice := fun (r : RawRow) =>
      match r.price with
      | none => true
      | some p => decide (p ≤ 0)
    let badSide := fun (r : RawRow) =>
      !(["buy", "sell"].contains (strLower (strTrim r.side)))
    let badClient := fun (r : RawRow) =>
      !(["gold", "silver", "bronze"].contains (strLower (strTrim r.client_type)))
    { missing_columns := none
      invalid_timestamp_format := someIfNonempty (df.rows.filter badTs)
      timestamp_in_future :=
        if forbid_future_ts then someIfNonempty (df.rows.filter fut) else none
      invalid_quantity := someIfNonempty (df.rows.filter badQty)
      invalid_price := someIfNonempty (df.rows.filter badPrice)
      invalid_side := someIfNonempty (df.rows.filter badSide)
      invalid_client_type := someIfNonempty (df.rows.filter badClient) }

/-- A row after the column-wise normalization assignments of `transform`
(timestamp parsed, categoricals recased and trimmed, numerics coerced);
fields that can still be null are `Option`s. -/
structure ParsedRow where
  ts : Option Ts
  user_id : Option String
  client_type : String
  symbol : Option String
  side : String
  quantity : Option ℚ
  price : Option ℚ
deriving DecidableEq, Repr

/-- The per-row normalization assignments of `transform`:
`pd.to_datetime(..., errors="coerce")` on the timestamp, lower+strip on
`client_type` and `side`, upper+strip on `symbol`, numeric coercion on
`quantity` and `price` (already materialized in the `RawRow` fields); the
string accessors propagate a missing `symbol` unchanged (`.str.upper()` on
`<NA>` stays `<NA>`). -/
def parseNormalizeRow (r : RawRow) : ParsedRow :=
  { ts := r.timestamp.bind parseTs
    user_id := r.user_id
    client_type := strTrim (strLower r.client_type)
    symbol := r.symbol.map (fun sy => strTrim (strUpper sy))
    side := strTrim (strLower r.side)
    quantity := r.quantity
    price := r.price }

/-- A fully normalized row together with its `week_start_date` column. -/
structure NormRow where
  ts : Ts
  week_start_date : Ts
  user_id : Option String
  client_type : String
  symbol : Option String
  side : String
  quantity : ℚ
  price : ℚ
deriving DecidableEq, Repr

/-- Stage `df = df.dropna(subset=["timestamp","quantity","price"])`. -/
def dropStillBad (rows : List ParsedRow) : List ParsedRow :=
  rows.filter (fun r => r.ts.isSome && r.quantity.isSome && r.price.isSome)

/-- Stage `df = df[df["client_type"].isin({"gold","silver","bronze"})]`. -/
def keepAllowedClients (rows : List ParsedRow) : List ParsedRow :=
  rows.filter (fun r => ["gold", "silver", "bronze"].contains r.client_type)

/-- Stage `df["week_start_date"] = to_week_start_monday(df["timestamp"])`,
packaging the fields that `dropStillBad` has made non-null. -/
def addWeekStart (rows : List ParsedRow) : List NormRow :=
  rows.filterMap (fun r =>
    match r.ts, r.quantity, r.price with
    | some t, some q, some p =>
      some { ts := t
             week_start_date := to_week_start_monday t
             user_id := r.user_id
             client_type := r.client_type
             symbol := r.symbol
             side := r.side
             quantity := q
             price := p }
    | _, _, _ => none)

/-- The per-row signed cash-flow column `transform` adds when `include_pnl`:
`r["price"] * r["quantity"] * (1 if r["side"] == "sell" else -1)`. -/
def cashflow (r : NormRow) : ℚ :=
  r.price * r.quantity * (if r.side = "sell" then 1 else -1)

/-- The grouping key `["week_start_date","client_type","user_id","symbol"]`;
the `user_id` and `symbol` components can be missing. -/
def aggKey (r : NormRow) : Ts × String × Option String × Option String :=
  (r.week_start_date, r.client_type, r.user_id, r.symbol)

/-- One row of the weekly aggregate. -/
structure AggRow where
  week_start_date : Ts
  client_type : String
  user_id : Option String
  symbol : Option String
  total_volume : ℚ
  trade_count : Nat
  price : ℚ
  total_pnl : Option ℚ
deriving DecidableEq, Repr

/-- The weekly aggregate table; `pnlCol` records whether the `total_pnl`
column exists at all (pandas column presence, distinct from rows that
merely hold missing values). -/
structure AggTable where
  rows : List AggRow
  pnlCol : Bool
deriving DecidableEq, Repr

/-- The aggregation stage of `transform`: group by the key with
`total_volume` the quantity sum, `trade_count` the group size and `price`
the mean, over the main groupby, which uses `dropna=False` and so also
forms groups whose `user_id` or `symbol` is missing.  When `include_pnl`,
`total_pnl` comes from a second groupby over the `cashflow` column: that
groupby uses the default `dropna=True`, so it has no row for a key with a
missing component, and the subsequent `how="left"` merge leaves those
groups' `total_pnl` missing (`NaN`); a fully present key receives exactly
its group's cashflow sum.  Keys are kept in first-encounter order;
`groupby(sort=True)` would sort them, and no verified property depends on
the aggregate's row order. -/
def aggRowFor (rows : List NormRow) (include_pnl : Bool)
    (k : Ts × String × Option String × Option String) : AggRow :=
  let g := rows.filter (fun r => decide (aggKey r = k))
  { week_start_date := k.1
    client_type := k.2.1
    user_id := k.2.2.1
    symbol := k.2.2.2
    total_volume := (g.map (fun r => r.quantity)).sum
    trade_count := g.length
    price := (g.map (fun r => r.price)).sum / (g.length : ℚ)
    total_pnl :=
      if include_pnl then
        if k.2.2.1.isSome && k.2.2.2.isSome then some ((g.map cashflow).sum) else none
      else none }

/-- The groups of `aggregate`: the distinct keys, one aggregate row each. -/
def aggregate (rows : List NormRow) (include_pnl : Bool) : AggTable :=
  { rows := ((rows.map aggKey).dedup).map (aggRowFor rows include_pnl)
    pnlCol := include_pnl }

/-- Function `transform(df, include_pnl, null_ts_mode)` from `src/scripts/etl.py`.
The `validate_formats` preview on its first line is computed and its result
discarded (`_ = validate_formats(df)`); being pure it has no effect and is
omitted. -/
def transform (df : RawTable) (include_pnl : Bool) (null_ts_mode : String) :
    Except ETLError AggTable :=
  match handle_null_timestamps df null_ts_mode with
  | .error e => .error e
  | .ok df2 =>
    .ok (aggregate
      (addWeekStart (keepAllowedClients (dropStillBad (df2.rows.map parseNormalizeRow))))
      include_pnl)

/-- One row of the top-clients report. -/
structure TopClientRow where
  user_id : String
  total_volume : ℚ
  total_pnl : ℚ
deriving DecidableEq, Repr

/-- The bronze restriction `agg_df[agg_df["client_type"] == "bronze"]`. -/
def bronzeRows (t : AggTable) : List AggRow :=
  t.rows.filter (fun r => r.client_type == "bronze")

/-- The distinct present bronze `user_id`s in first-encounter (table)
order; `groupby("user_id")` uses the default `dropna=True`, so rows with a
missing `user_id` form no report group. -/
def bronzeUsers (t : AggTable) : List String :=
  ((bronzeRows t).filterMap (fun r => r.user_id)).dedup

/-- The summary `bronze.groupby("user_id").agg(total_volume=..., total_pnl=...)`:
group keys in ascending `user_id` order (pandas `groupby` defaults to
`sort=True`), per user the sums of `total_volume` and `total_pnl` (pandas
`sum` skips missing values). -/
def userSummary (t : AggTable) : List TopClientRow :=
  ((bronzeUsers t).insertionSort strLe).map (fun u =>
    let g := (bronzeRows t).filter (fun r => r.user_id == some u)
    { user_id := u
      total_volume := (g.map (fun r => r.total_volume)).sum
      total_pnl := (g.filterMap (fun r => r.total_pnl)).sum })

/-- Descending-volume comparison: row `a` may precede row `b` in the
report when `b`'s `total_volume` is no larger. -/
def volGe (a b : TopClientRow) : Prop := b.total_volume ≤ a.total_volume

instance : DecidableRel volGe :=
  fun a b => inferInstanceAs (Decidable (b.total_volume ≤ a.total_volume))

instance : IsTotal TopClientRow volGe :=
  ⟨fun a b => le_total b.total_volume a.total_volume⟩

instance : IsTrans TopClientRow volGe :=
  ⟨fun _ _ _ h1 h2 => le_trans h2 h1⟩

/-- What `sort_values("total_volume", ascending=False)` guarantees: a
permutation of the input that is descending in `total_volume`.  The default
`kind='quicksort'` is documented unstable — numpy's introsort can scramble
a tie block once it exceeds the 16-element insertion-sort threshold — so
the order inside a tie block is unspecified, and the sort is modelled as an
arbitrary function with exactly these two properties. -/
def IsVolDescSort (f : List TopClientRow → List TopClientRow) : Prop :=
  ∀ l, (f l).Perm l ∧ (f l).Pairwise volGe

/-- Function `export_top_bronze_exact(agg_df)` from `src/scripts/etl.py`:
filter to bronze, per-user sums, descending sort by `total_volume`, first 3
rows.  The sort is passed in as any `IsVolDescSort` implementation, since
the source's `sort_values` leaves the tie order unspecified.  The named
aggregation references the `total_pnl` column, so pandas raises `KeyError`
whenever the aggregate lacks it.  The CSV write is an external effect; the
returned rows are the report content. -/
def export_top_bronze_exact (sortBy : List TopClientRow → List TopClientRow)
    (t : AggTable) : Except ETLError (List TopClientRow) :=
  if t.pnlCol then
    .ok ((sortBy (userSummary t)).take 3)
  else .error .totalPnlColumnMissing

/-- One admissible sort implementation: the stable descending insertion
sort.  Below its 16-element threshold numpy's introsort runs exactly an
insertion sort, so on the small concrete tables of this file (at most 4
bronze users) this is the program's actual tie behavior. -/
def stableVolSort : List TopClientRow → List TopClientRow :=
  List.insertionSort volGe

/-- Concrete raw BUY trade row: Wednesday 2024-01-03, bronze client,
price 10, quantity 2. -/
def buyRawRow : RawRow :=
  ⟨some ("2024-01-03"), some ("u1"), "Bronze", some ("abc"), "BUY", some 2, some 10⟩

/-- Concrete raw SELL trade row with the same price and quantity. -/
def sellRawRow : RawRow :=
  ⟨some ("2024-01-03"), some ("u1"), "Bronze", some ("abc"), "SELL", some 2, some 10⟩

/-- Single-row table holding `buyRawRow`, with all seven columns present. -/
def buyTable : RawTable := ⟨requiredColumns, [buyRawRow]⟩

/-- Single-row table holding `sellRawRow`. -/
def sellTable : RawTable := ⟨requiredColumns, [sellRawRow]⟩

/-- The aggregate row `transform buyTable true _` produces. -/
def buyAggRow : AggRow :=
  ⟨⟨19724, 0⟩, "bronze", some ("u1"), some ("ABC"), 2, 1, 10, some (-20)⟩

/-- The aggregate row `transform sellTable true _` produces. -/
def sellAggRow : AggRow :=
  ⟨⟨19724, 0⟩, "bronze", some ("u1"), some ("ABC"), 2, 1, 10, some 20⟩

/-- The aggregate row `transform buyTable false _` produces. -/
def buyAggRowNoPnl : AggRow :=
  ⟨⟨19724, 0⟩, "bronze", some ("u1"), some ("ABC"), 2, 1, 10, none⟩

/-- A row whose timestamp is blank after trimming. -/
def blankTsRow : RawRow :=
  ⟨some ("   "), some ("u2"), "bronze", some ("X"), "buy", some 1, some 2⟩

/-- A five-row batch whose position-2 row has a blank timestamp. -/
def fiveRowTable : RawTable :=
  ⟨requiredColumns, [buyRawRow, buyRawRow, blankTsRow, buyRawRow, buyRawRow]⟩

/-- Helper building a one-week bronze aggregate row for a user. -/
def mkBronzeAggRow (u : String) (v p : ℚ) : AggRow :=
  ⟨⟨19723, 0⟩, "bronze", some u, some ("ABC"), v, 1, 5, some p⟩

/-- Aggregate with three bronze users of equal volume, first encountered in
the order b, c, a. -/
def tieAgg : AggTable :=
  ⟨[mkBronzeAggRow ("b") 50 1, mkBronzeAggRow ("c") 50 2, mkBronzeAggRow ("a") 50 3], true⟩

/-- Aggregate with bronze users a(100), b(50), c(30), d(10). -/
def topAgg : AggTable :=
  ⟨[mkBronzeAggRow ("a") 100 1, mkBronzeAggRow ("b") 50 2,
    mkBronzeAggRow ("c") 30 3, mkBronzeAggRow ("d") 10 4], true⟩

/-- A normalized bronze BUY row (Wednesday 2024-01-03). -/
def normBuyRow : NormRow :=
  ⟨⟨19725, 0⟩, ⟨19724, 0⟩, some ("u1"), "bronze", some ("ABC"), "buy", 2, 10⟩

/-- A normalized gold SELL row in the same week. -/
def normGoldRow : NormRow :=
  ⟨⟨19725, 0⟩, ⟨19724, 0⟩, some ("u2"), "gold", some ("ABC"), "sell", 3, 7⟩

/-- An aggregate table without the `total_pnl` column. -/
def noPnlAgg : AggTable := ⟨[buyAggRowNoPnl], false⟩

/-- A raw bronze BUY row whose `user_id` field is missing. -/
def naUserRawRow : RawRow :=
  ⟨some ("2024-01-03"), none, "Bronze", some ("abc"), "BUY", some 2, some 10⟩

/-- Single-row table holding `naUserRawRow`. -/
def naUserTable : RawTable := ⟨requiredColumns, [naUserRawRow]⟩

/-- The normalized form of `naUserRawRow`. -/
def normNaUserRow : NormRow :=
  ⟨⟨19725, 0⟩, ⟨19724, 0⟩, none, "bronze", some ("ABC"), "buy", 2, 10⟩

/-- The aggregate row `transform naUserTable true _` produces: the missing
`user_id` key component leaves `total_pnl` missing after the left merge. -/
def naAggRow : AggRow :=
  ⟨⟨19724, 0⟩, "bronze", none, some ("ABC"), 2, 1, 10, none⟩

deriving instance DecidableEq for Except

/-- C9 (confirmed): the result of `extract` is independent of its `path`
argument — it always reads the fixed file `"data/trades.csv"`, so for any
two configured data-source locations the same table feeds the pipeline. -/
theorem extract_ignores_path (p1 p2 : String) (fileSystem : String → RawTable) :
    extract p1 fileSystem = extract p2 fileSystem := rfl

/-- C1 (code bug): `to_week_start_monday` buckets instants by the pandas
period `W-MON`, whose weeks end on Monday, so every kept row is assigned
the Tuesday at or before its instant (time truncated) rather than the
Monday the claim — and the function's own name — require.  Concretely: the
Wednesday 2024-01-03 (epoch day 19725) buckets to Tuesday 2024-01-02
(19724) instead of Monday 2024-01-01 (19723), and the Sunday 2023-12-31
(19722) buckets to Tuesday 2023-12-26 (19717) instead of Monday 2023-12-25
(19716); `isoWeekStartMondaySpec` is the spec-side Monday bucketing, and
the divergence propagates through `transform`. -/
theorem week_bucketing_is_tuesday_not_monday :
    daysFromCivil 2024 1 3 = 19725 ∧ dayOfWeekMon0 19725 = 2 ∧
    daysFromCivil 2024 1 1 = 19723 ∧ dayOfWeekMon0 19723 = 0 ∧
    daysFromCivil 2024 1 2 = 19724 ∧ dayOfWeekMon0 19724 = 1 ∧
    parseTs ("2024-01-03") = some ⟨19725, 0⟩ ∧
    to_week_start_monday ⟨19725, 0⟩ = ⟨19724, 0⟩ ∧
    isoWeekStartMondaySpec ⟨19725, 0⟩ = ⟨19723, 0⟩ ∧
    daysFromCivil 2023 12 31 = 19722 ∧ dayOfWeekMon0 19722 = 6 ∧
    to_week_start_monday ⟨19722, 0⟩ = ⟨19717, 0⟩ ∧
    daysFromCivil 2023 12 26 = 19717 ∧
    isoWeekStartMondaySpec ⟨19722, 0⟩ = ⟨19716, 0⟩ ∧
    daysFromCivil 2023 12 25 = 19716 ∧
    to_week_start_monday ⟨19725, 55800⟩ = ⟨19724, 0⟩ ∧
    (transform buyTable true ("error")).map (fun t => t.rows.map (fun g => g.week_start_date)) =
      .ok [⟨19724, 0⟩] := by
  decide

/-- C3 counterexample: under the reserved policy value `"fill"`, an input
whose rows all have present, non-blank timestamps passes through unchanged
— no unknown-policy error is raised, contradicting the claim that every
policy value outside error/drop fails whether or not a null/blank
timestamp occurs. -/
theorem unknown_policy_counterexample :
    handle_null_timestamps buyTable ("fill") = .ok buyTable := by decide

/-- C3 amended: a policy value other than `"error"` and `"drop"` (such as
the reserved `"fill"`) makes normalization fail with an unknown-policy
error naming the value exactly when at least one row has a null or
blank-after-trim timestamp; when no row does, the unrecognized policy is
silently accepted and the table passes through unchanged. -/
theorem unknown_policy_amended (df : RawTable) (mode : String)
    (hcol : ("timestamp") ∈ df.cols)
    (he : mode ≠ "error") (hd : mode ≠ "drop") :
    (df.rows.any isEmptyTs = true →
      handle_null_timestamps df mode = .error (.unknownMode mode)) ∧
    (df.rows.any isEmptyTs = false →
      handle_null_timestamps df mode = .ok df) := by
  constructor <;> intro h <;> simp [handle_null_timestamps, hcol, he, hd, h]

/-- Witness for the amended C3: the five-row batch containing one blank
timestamp fails under `"fill"` with the unknown-mode error, while the
clean single-row table passes through unchanged. -/
theorem unknown_policy_amended_witness :
    handle_null_timestamps fiveRowTable ("fill") = .error (.unknownMode "fill") ∧
    handle_null_timestamps sellTable ("fill") = .ok sellTable :=
  ⟨(unknown_policy_amended fiveRowTable ("fill") (by decide) (by decide) (by decide)).1
      (by decide),
   (unknown_policy_amended sellTable ("fill") (by decide) (by decide) (by decide)).2
      (by decide)⟩

/-- C5 (confirmed): whenever at least one required column is missing, the
validator returns the report whose only populated entry is
`missing_columns`, listing exactly the missing names; every row-level
category is left empty (no row rule is evaluated) and nothing is raised —
the function is total. -/
theorem validator_missing_columns_short_circuits (df : RawTable) (fb : Bool) (now : Ts)
    (h : requiredColumns.filter (fun c => !(df.cols.contains c)) ≠ []) :
    validate_formats df fb now =
      { missing_columns := some (requiredColumns.filter (fun c => !(df.cols.contains c)))
        invalid_timestamp_format := none
        timestamp_in_future := none
        invalid_quantity := none
        invalid_price := none
        invalid_side := none
        invalid_client_type := none } := by
  simp only [validate_formats, ne_eq]
  rw [if_pos h]

/-- Witness for C5: a table having only the `timestamp` column yields the
report listing the six other required names and nothing else. -/
theorem validator_missing_columns_short_circuits_witness :
    validate_formats ⟨["timestamp"], []⟩ true ⟨20000, 0⟩ =
      ⟨some ["user_id", "client_type", "symbol", "side", "quantity", "price"],
       none, none, none, none, none, none⟩ :=
  (validator_missing_columns_short_circuits ⟨["timestamp"], []⟩ true ⟨20000, 0⟩
      (by decide)).trans (by decide)

/-- C4 (confirmed): when some row's timestamp is null or blank after
trimming, policy `"error"` makes normalization fail immediately — an
`Except.error` carrying the offending row positions capped to the first 5,
each listed position indexing a null/blank-timestamp row, and no partial
output — while policy `"drop"` silently removes exactly those rows. -/
theorem null_timestamp_error_reports_drop_removes (df : RawTable)
    (hcol : ("timestamp") ∈ df.cols)
    (hne : df.rows.any isEmptyTs = true) :
    handle_null_timestamps df ("error") =
      .error (.nullTimestamps ((emptyTsPositions df).take 5)) ∧
    ((emptyTsPositions df).take 5).length ≤ 5 ∧
    (∀ i ∈ (emptyTsPositions df).take 5, ∃ r, df.rows[i]? = some r ∧ isEmptyTs r = true) ∧
    handle_null_timestamps df ("drop") =
      .ok { df with rows := df.rows.filter (fun r => !isEmptyTs r) } := by
  refine ⟨by simp [handle_null_timestamps, hcol, hne], ?_, ?_,
    by simp [handle_null_timestamps, hcol, hne]⟩
  · rw [List.length_take]
    omega
  · intro i hi
    have hi2 : i ∈ emptyTsPositions df := List.take_subset 5 _ hi
    unfold emptyTsPositions at hi2
    obtain ⟨p, hp, rfl⟩ := List.mem_map.1 hi2
    have hpe := List.mem_filter.1 hp
    refine ⟨p.2, ?_, by simpa using hpe.2⟩
    have := List.mem_enum_iff_getElem?.1 hpe.1
    simpa using this

/-- Witness for C4: in the five-row batch whose position-2 row has a blank
timestamp, `"error"` mode fails naming position 2 and `"drop"` mode returns
the four other rows with no error. -/
theorem null_timestamp_error_reports_drop_removes_witness :
    handle_null_timestamps fiveRowTable ("error") = .error (.nullTimestamps [2]) ∧
    (handle_null_timestamps fiveRowTable ("drop")).map (fun d => d.rows.length) = .ok 4 :=
  ⟨((null_timestamp_error_reports_drop_removes fiveRowTable (by decide) (by decide)).1).trans
      (by decide),
   by decide⟩

/-- Helper: a successful `transform` returns an aggregate whose `total_pnl`
column presence flag equals the `include_pnl` argument. -/
theorem transform_ok_pnlCol (df : RawTable) (b : Bool) (m : String) (t : AggTable)
    (h : transform df b m = .ok t) : t.pnlCol = b := by
  unfold transform at h
  cases hh : handle_null_timestamps df m with
  | error e => rw [hh] at h; exact absurd h (by simp)
  | ok df2 =>
    rw [hh] at h
    exact (Except.ok.inj h) ▸ rfl

/-- C10 (confirmed): the top-bronze report reads the `total_pnl` column
unconditionally, so for every aggregate table lacking that column — in
particular every aggregate produced by `transform` with PnL disabled —
`export_top_bronze_exact` raises the missing-column error instead of
writing a report. -/
theorem export_top_bronze_requires_pnl :
    (∀ (sortBy : List TopClientRow → List TopClientRow) (t : AggTable), t.pnlCol = false →
      export_top_bronze_exact sortBy t = .error .totalPnlColumnMissing) ∧
    (∀ (sortBy : List TopClientRow → List TopClientRow) (df : RawTable) (m : String)
      (t : AggTable), transform df false m = .ok t →
      export_top_bronze_exact sortBy t = .error .totalPnlColumnMissing) := by
  constructor
  · intro sortBy t ht
    simp [export_top_bronze_exact, ht]
  · intro sortBy df m t h
    have hp := transform_ok_pnlCol df false m t h
    simp [export_top_bronze_exact, hp]

/-- Witness for C10: the concrete PnL-disabled run `transform buyTable
false "drop"` yields `noPnlAgg`, on which the report raises the
missing-column error. -/
theorem export_top_bronze_requires_pnl_witness :
    export_top_bronze_exact stableVolSort noPnlAgg = .error .totalPnlColumnMissing ∧
    transform buyTable false ("drop") = .ok noPnlAgg :=
  ⟨export_top_bronze_requires_pnl.2 stableVolSort buyTable ("drop") noPnlAgg (by decide),
   by decide⟩

/-- Helper: every row of a PnL-disabled `aggregate` holds no `total_pnl`
value. -/
theorem aggregate_false_rows_pnl_none (rows : List NormRow) (g : AggRow)
    (hg : g ∈ (aggregate rows false).rows) : g.total_pnl = none := by
  simp only [aggregate, List.mem_map] at hg
  obtain ⟨k, hk, rfl⟩ := hg
  rfl

/-- C8 (confirmed): a PnL-disabled `transform` returns an aggregate with no
`total_pnl` column at all (`pnlCol = false`), and accordingly no row holds
a `total_pnl` value — the column is absent, not present with nulls. -/
theorem transform_pnl_disabled_column_absent (df : RawTable) (m : String) (t : AggTable)
    (h : transform df false m = .ok t) :
    t.pnlCol = false ∧ ∀ g ∈ t.rows, g.total_pnl = none := by
  refine ⟨transform_ok_pnlCol df false m t h, ?_⟩
  unfold transform at h
  cases hh : handle_null_timestamps df m with
  | error e => rw [hh] at h; exact absurd h (by simp)
  | ok df2 =>
    rw [hh] at h
    intro g hg
    rw [← Except.ok.inj h] at hg
    exact aggregate_false_rows_pnl_none _ g hg

/-- Witness for C8: the PnL-disabled run on the concrete buy table has the
`total_pnl` column absent, and its single row carries no value. -/
theorem transform_pnl_disabled_column_absent_witness :
    noPnlAgg.pnlCol = false ∧ buyAggRowNoPnl.total_pnl = none :=
  ⟨(transform_pnl_disabled_column_absent buyTable ("drop") noPnlAgg (by decide)).1,
   (transform_pnl_disabled_column_absent buyTable ("drop") noPnlAgg (by decide)).2
      buyAggRowNoPnl (by decide)⟩

/-- C6 counterexample: a bronze BUY row with price 10, quantity 2 and a
missing `user_id` survives normalization (`dropna` covers only
timestamp/quantity/price) and forms an aggregate group whose rows' signed
cash-flows sum to -20, yet the group's `total_pnl` is missing: the main
aggregation groups with `dropna=False` while the PnL groupby uses the
default `dropna=True`, so the left merge finds no PnL row for the
missing-key group and fills `NaN` — not the cash-flow sum the claim
requires for every group. -/
theorem aggregate_pnl_na_key_counterexample :
    (aggregate [normNaUserRow] true).rows.map (fun g => g.total_pnl) = [none] ∧
    ([normNaUserRow].map cashflow).sum = (-20 : ℚ) ∧
    transform naUserTable true ("error") = .ok ⟨[naAggRow], true⟩ ∧
    naAggRow.total_pnl = none ∧
    (none : Option ℚ) ≠ some (-20) :=
  ⟨by decide, by decide, by decide, by decide, by decide⟩

/-- C6 amended: with PnL enabled, every aggregate group whose grouping key
is fully present (`user_id` and `symbol` non-missing) has `total_pnl` equal
to the sum over the group's rows of the signed cash-flow
`price * quantity * (+1 when the normalized side is exactly "sell", -1 for
every other side value)`; a group whose `user_id` or `symbol` is missing
instead gets a missing `total_pnl`, because the PnL groupby (default
`dropna=True`) drops it and the `how="left"` merge fills `NaN`. -/
theorem aggregate_pnl_amended (rows : List NormRow) (g : AggRow)
    (hg : g ∈ (aggregate rows true).rows) :
    (∀ u sy, g.user_id = some u → g.symbol = some sy →
      g.total_pnl = some (((rows.filter (fun r =>
          decide (aggKey r = (g.week_start_date, g.client_type, g.user_id, g.symbol)))).map
        (fun r => r.price * r.quantity * (if r.side = "sell" then 1 else -1))).sum)) ∧
    (g.user_id = none ∨ g.symbol = none → g.total_pnl = none) := by
  simp only [aggregate, List.mem_map] at hg
  obtain ⟨⟨k1, k2, k3, k4⟩, hk, rfl⟩ := hg
  constructor
  · intro u sy hu hsy
    simp only [aggRowFor] at hu hsy ⊢
    rw [hu, hsy]
    rfl
  · intro h
    rcases h with h | h <;>
      simp only [aggRowFor] at h ⊢ <;> rw [h] <;> simp

/-- Witness for the amended C6: the bronze BUY row with present keys
aggregates to `total_pnl = -20` (and SELL to `+20`, also through the full
`transform`), while the missing-`user_id` group's `total_pnl` is missing. -/
theorem aggregate_pnl_amended_witness :
    buyAggRow ∈ (aggregate [normBuyRow] true).rows ∧
    buyAggRow.total_pnl = some (-20) ∧
    naAggRow ∈ (aggregate [normNaUserRow] true).rows ∧
    naAggRow.total_pnl = none ∧
    transform buyTable true ("error") = .ok ⟨[buyAggRow], true⟩ ∧
    transform sellTable true ("error") = .ok ⟨[sellAggRow], true⟩ ∧
    sellAggRow.total_pnl = some 20 :=
  ⟨by decide,
   ((aggregate_pnl_amended [normBuyRow] buyAggRow (by decide)).1 "u1" "ABC"
      (by decide) (by decide)).trans (by decide),
   by decide,
   (aggregate_pnl_amended [normNaUserRow] naAggRow (by decide)).2 (Or.inl (by decide)),
   by decide, by decide, by decide⟩

/-- Helper: the aggregate row built for a key depends on the input rows
only through their multiset — sums, counts and means are invariant under
permutation. -/
theorem aggRowFor_perm (rows1 rows2 : List NormRow) (b : Bool)
    (k : Ts × String × Option String × Option String) (h : rows1.Perm rows2) :
    aggRowFor rows1 b k = aggRowFor rows2 b k := by
  have hg := h.filter (fun r => decide (aggKey r = k))
  simp only [aggRowFor]
  rw [(hg.map (fun r => r.quantity)).sum_eq, (hg.map (fun r => r.price)).sum_eq,
    hg.length_eq, (hg.map cashflow).sum_eq]

/-- C7 (confirmed): the aggregation step is order-independent — permuting
the input rows permutes the resulting aggregate rows (identical as a set of
rows, with each group's `total_volume`, `trade_count`, mean `price` and
`total_pnl` unchanged), and the grouping keys
`(week_start_date, client_type, user_id, symbol)` of the result are
pairwise distinct. -/
theorem aggregate_is_order_independent (rows1 rows2 : List NormRow) (b : Bool)
    (h : rows1.Perm rows2) :
    ((aggregate rows1 b).rows).Perm ((aggregate rows2 b).rows) ∧
    (((aggregate rows1 b).rows).map (fun g =>
      (g.week_start_date, g.client_type, g.user_id, g.symbol))).Nodup := by
  constructor
  · show (((rows1.map aggKey).dedup).map (aggRowFor rows1 b)).Perm
      (((rows2.map aggKey).dedup).map (aggRowFor rows2 b))
    have hkeys : ((rows1.map aggKey).dedup).Perm ((rows2.map aggKey).dedup) :=
      (h.map aggKey).dedup
    rw [List.map_congr_left (fun k _ => aggRowFor_perm rows1 rows2 b k h)]
    exact hkeys.map (aggRowFor rows2 b)
  · have hmap : (((aggregate rows1 b).rows).map (fun g =>
        (g.week_start_date, g.client_type, g.user_id, g.symbol))) =
        (rows1.map aggKey).dedup := by
      show ((((rows1.map aggKey).dedup).map (aggRowFor rows1 b)).map (fun g =>
        (g.week_start_date, g.client_type, g.user_id, g.symbol))) = (rows1.map aggKey).dedup
      rw [List.map_map]
      have : ∀ k ∈ (rows1.map aggKey).dedup,
          ((fun g => (g.week_start_date, g.client_type, g.user_id, g.symbol)) ∘
            (aggRowFor rows1 b)) k = id k := by
        intro k _
        obtain ⟨k1, k2, k3, k4⟩ := k
        rfl
      rw [List.map_congr_left this, List.map_id]
    rw [hmap]
    exact List.nodup_dedup _

/-- Witness for C7: swapping the two normalized rows of a concrete batch
permutes the aggregate rows and keeps the keys distinct. -/
theorem aggregate_is_order_independent_witness :
    ((aggregate [normBuyRow, normGoldRow] true).rows).Perm
      ((aggregate [normGoldRow, normBuyRow] true).rows) ∧
    (((aggregate [normBuyRow, normGoldRow] true).rows).map (fun g =>
      (g.week_start_date, g.client_type, g.user_id, g.symbol))).Nodup :=
  aggregate_is_order_independent [normBuyRow, normGoldRow] [normGoldRow, normBuyRow] true
    (List.Perm.swap normGoldRow normBuyRow [])

/-- The stable insertion sort is one admissible `sort_values`
implementation: it permutes its input and orders it descending by
`total_volume`. -/
theorem stableVolSort_is_vol_desc_sort : IsVolDescSort stableVolSort :=
  fun l => ⟨List.perm_insertionSort volGe l, List.sorted_insertionSort volGe l⟩

/-- Helper: the per-user summaries carry pairwise-distinct user ids (they
are built over the deduplicated bronze user list). -/
theorem userSummary_uids_nodup (t : AggTable) :
    ((userSummary t).map TopClientRow.user_id).Nodup := by
  have heq : ((userSummary t).map TopClientRow.user_id) =
      (bronzeUsers t).insertionSort strLe := by
    unfold userSummary
    rw [List.map_map]
    conv_rhs => rw [← List.map_id ((bronzeUsers t).insertionSort strLe)]
    exact List.map_congr_left (fun u _ => rfl)
  rw [heq]
  exact ((List.perm_insertionSort strLe (bronzeUsers t)).nodup_iff).2 (List.nodup_dedup _)

/-- C2 counterexample: in `tieAgg` the bronze users all have total volume
50 and the groups are first encountered in the order b, c, a, so the claim
as stated requires the report rows in the order b, c, a; the reduction
instead groups by `user_id` — which sorts the group keys and erases the
encounter order — and returns them as a, b, c (at three rows numpy's sort
runs its stable insertion-sort path, so `stableVolSort` is the program's
behavior here). -/
theorem top_bronze_tiebreak_counterexample :
    export_top_bronze_exact stableVolSort tieAgg =
      .ok [⟨"a", 50, 3⟩, ⟨"b", 50, 1⟩, ⟨"c", 50, 2⟩] ∧
    bronzeUsers tieAgg = ["b", "c", "a"] ∧
    (["a", "b", "c"] : List String) ≠ ["b", "c", "a"] :=
  ⟨by decide, by decide, by decide⟩

/-- C2 amended: for every aggregate table carrying the `total_pnl` column
and every sort implementation meeting the `sort_values` contract (a
volume-descending permutation; the default quicksort leaves the tie order
unspecified), the reduction returns — without error — the first 3 rows
(fewer when fewer distinct bronze users exist, none when none) of the
per-user summaries sorted descending by `total_volume`: the returned rows
are true per-user summaries with pairwise-distinct user ids, they are in
descending volume order, and every summary left out has total volume at
most that of every returned row.  The original claim's tie-break by
first-encounter order does not hold (see the counterexample): grouping
sorts the user ids first, and no particular tie order is guaranteed. -/
theorem top_bronze_sorted_amended (sortBy : List TopClientRow → List TopClientRow)
    (hs : IsVolDescSort sortBy) (t : AggTable) (h : t.pnlCol = true) :
    ∃ l, export_top_bronze_exact sortBy t = .ok l ∧
      l.Pairwise volGe ∧
      l.length = min 3 (bronzeUsers t).length ∧
      (∀ r ∈ l, r ∈ userSummary t) ∧
      (l.map TopClientRow.user_id).Nodup ∧
      (∀ s ∈ userSummary t, s ∉ l → ∀ r ∈ l, s.total_volume ≤ r.total_volume) := by
  obtain ⟨hperm, hsorted⟩ := hs (userSummary t)
  refine ⟨(sortBy (userSummary t)).take 3,
    by simp [export_top_bronze_exact, h], ?_, ?_, ?_, ?_, ?_⟩
  · exact List.Pairwise.sublist (List.take_sublist 3 _) hsorted
  · rw [List.length_take, hperm.length_eq]
    simp [userSummary, List.length_insertionSort]
  · intro r hr
    exact hperm.subset (List.take_subset 3 _ hr)
  · have hn : ((sortBy (userSummary t)).map TopClientRow.user_id).Nodup :=
      ((hperm.map TopClientRow.user_id).nodup_iff).2 (userSummary_uids_nodup t)
    exact hn.sublist ((List.take_sublist 3 _).map TopClientRow.user_id)
  · intro s hs2 hnot r hr
    have hsmem : s ∈ sortBy (userSummary t) := hperm.symm.subset hs2
    have hsorted2 : ((sortBy (userSummary t)).take 3 ++
        (sortBy (userSummary t)).drop 3).Pairwise volGe := by
      rw [List.take_append_drop]
      exact hsorted
    rcases List.pairwise_append.1 hsorted2 with ⟨_, _, hcross⟩
    have hsplit : s ∈ (sortBy (userSummary t)).take 3 ∨
        s ∈ (sortBy (userSummary t)).drop 3 := by
      rw [← List.mem_append, List.take_append_drop]
      exact hsmem
    rcases hsplit with hstake | hsdrop
    · exact absurd hstake hnot
    · exact hcross r hr s hsdrop

/-- Witness for the amended C2: the concrete aggregate with bronze users
a(100), b(50), c(30), d(10) satisfies the amended statement under the
stable sort (the program's behavior at this size), and the reduction
concretely returns [a, b, c] in that order, excluding d. -/
theorem top_bronze_sorted_amended_witness :
    topAgg.pnlCol = true ∧
    (∃ l, export_top_bronze_exact stableVolSort topAgg = .ok l ∧
      l.Pairwise volGe ∧
      l.length = min 3 (bronzeUsers topAgg).length ∧
      (∀ r ∈ l, r ∈ userSummary topAgg) ∧
      (l.map TopClientRow.user_id).Nodup ∧
      (∀ s ∈ userSummary topAgg, s ∉ l → ∀ r ∈ l, s.total_volume ≤ r.total_volume)) ∧
    export_top_bronze_exact stableVolSort topAgg =
      .ok [⟨"a", 100, 1⟩, ⟨"b", 50, 2⟩, ⟨"c", 30, 3⟩] :=
  ⟨rfl, top_bronze_sorted_amended stableVolSort stableVolSort_is_vol_desc_sort topAgg rfl,
   by decide⟩
